import Mathlib

/-!
Shallow embedding of the partial 8086 emulator (src/main.rs).

Modelling conventions:
* Rust u8 / u16 values are Nat; a value crossing a u8 (resp. u16) typed
  boundary is reduced mod 256 (resp. 65536), and wrapping_add, wrapping_sub
  and plain overflowing + / - on u8 / u16 are modelled as arithmetic mod
  256 / 65536 (twos-complement wraparound, the release-profile semantics;
  the source uses explicit wrapping_add / wrapping_sub almost everywhere).
* usize arithmetic wraps mod 2 ^ 64 (offset.wrapping_add(1) in read16 and
  write16 acts on a usize field, not on a u16).
* Array indexing by a usize that may exceed the array bound is checked:
  Rust panics there in every build profile, modelled by Option. Indexing
  by a u16-typed value (always below 65536) is total.
* Bit operations on bytes are rendered arithmetically where the operand
  range makes them equal: x >> 6 = x / 64, (x >> 3) & 7 = x / 8 % 8,
  x & 7 = x % 8 and x >> 15 = x / 32768 for byte / word values.
-/

/-- Register width in bytes, 2 bytes = 16 bit (const REG_WIDTH). -/
def REG_WIDTH : Nat := 2

/-- Modulus of usize arithmetic (64-bit platform). -/
def USIZE_MOD : Nat := 2 ^ 64

/-- The eight ALU operations, keyed 0 to 7 (enum Operation). -/
inductive Operation where
  | Add | Or | Adc | Sbb | And | Sub | Xor | Cmp
deriving DecidableEq

/-- Numeric-to-variant conversion derived by enum_primitive for Operation;
returns none for codes 8 and above. -/
def Operation.from_u8 (n : Nat) : Option Operation :=
  match n with
  | 0 => some .Add
  | 1 => some .Or
  | 2 => some .Adc
  | 3 => some .Sbb
  | 4 => some .And
  | 5 => some .Sub
  | 6 => some .Xor
  | 7 => some .Cmp
  | _ => none

/-- Tag distinguishing the register file from memory (enum RegisterMemory). -/
inductive RegisterMemory where
  | Register | Memory
deriving DecidableEq

/-- An operand reference: register byte offset or memory address, the
offset being a usize (struct Pointer). -/
structure Pointer where
  rm : RegisterMemory
  offset : Nat
deriving DecidableEq

/-- Processor state (struct Cpu): 65536 memory bytes, a 16-bit instruction
pointer, 16 register-file bytes, and the three flags. The byte stores are
modelled as functions from the index; only indices below the array length
are meaningful. -/
structure Cpu where
  memory : Nat → Nat
  ip : Nat
  regs : Nat → Nat
  cf : Bool
  zf : Bool
  sf : Bool

/-- Accumulator register (const Cpu::AX). -/
def Cpu.AX : Pointer := ⟨.Register, 0b000⟩

/-- Base register (const Cpu::BX). -/
def Cpu.BX : Pointer := ⟨.Register, 0b011 * REG_WIDTH⟩

/-- Stack pointer (const Cpu::SP). -/
def Cpu.SP : Pointer := ⟨.Register, 0b100 * REG_WIDTH⟩

/-- Stack base pointer (const Cpu::BP). -/
def Cpu.BP : Pointer := ⟨.Register, 0b101 * REG_WIDTH⟩

/-- Destination index register (const Cpu::DI). -/
def Cpu.DI : Pointer := ⟨.Register, 0b111 * REG_WIDTH⟩

/-- Little-endian conversion to16: ((b as u16) << 8) | a, on u8 inputs. -/
def Cpu.to16 (a b : Nat) : Nat := b % 256 * 256 + a % 256

/-- Little-endian conversion to8s: (value as u8, (value >> 8) as u8). -/
def Cpu.to8s (value : Nat) : Nat × Nat := (value % 256, value / 256 % 256)

/-- Cpu::sign_extend: ((a as i8) as i16) as u16. -/
def Cpu.sign_extend (a : Nat) : Nat :=
  if a % 256 < 128 then a % 256 else 0xff00 + a % 256

/-- Cpu::read8: checked byte load from the register file or memory. -/
def Cpu.read8 (c : Cpu) (p : Pointer) : Option Nat :=
  match p.rm with
  | .Register => if p.offset < 16 then some (c.regs p.offset % 256) else none
  | .Memory => if p.offset < 65536 then some (c.memory p.offset % 256) else none

/-- Cpu::read16: two byte loads, the second at offset.wrapping_add(1) on
the usize offset of the same space. -/
def Cpu.read16 (c : Cpu) (p : Pointer) : Option Nat := do
  let a ← c.read8 p
  let b ← c.read8 ⟨p.rm, (p.offset + 1) % USIZE_MOD⟩
  pure (Cpu.to16 a b)

/-- Cpu::write8: checked byte store to the register file or memory. -/
def Cpu.write8 (c : Cpu) (p : Pointer) (value : Nat) : Option Cpu :=
  match p.rm with
  | .Register =>
      if p.offset < 16 then
        some { c with regs := fun i => if i = p.offset then value % 256 else c.regs i }
      else none
  | .Memory =>
      if p.offset < 65536 then
        some { c with memory := fun i => if i = p.offset then value % 256 else c.memory i }
      else none

/-- Cpu::write16: two byte stores, the second at offset.wrapping_add(1) on
the usize offset of the same space. -/
def Cpu.write16 (c : Cpu) (p : Pointer) (value : Nat) : Option Cpu := do
  let (a, b) := Cpu.to8s value
  let c1 ← c.write8 p a
  c1.write8 ⟨p.rm, (p.offset + 1) % USIZE_MOD⟩ b

/-- Cpu::new: memory zeroed, instruction pointer 0, registers zeroed,
flags clear, then the stack pointer register is preset to 0x100. -/
def Cpu.new : Option Cpu :=
  Cpu.write16
    { memory := fun _ => 0, ip := 0, regs := fun _ => 0,
      cf := false, zf := false, sf := false }
    Cpu.SP 0x100

/-- Cpu::get_register: register pointer for a 3-bit register number taken
mod 8, scaled by the register width. -/
def Cpu.get_register (offset : Nat) : Pointer :=
  ⟨.Register, offset % 8 * REG_WIDTH⟩

/-- Cpu::read_instr8: fetch the byte at the instruction pointer and
advance the pointer by one (u16 increment). -/
def Cpu.read_instr8 (c : Cpu) : Nat × Cpu :=
  (c.memory c.ip % 256, { c with ip := (c.ip + 1) % 65536 })

/-- Cpu::read_instr16: fetch two bytes, low byte first. -/
def Cpu.read_instr16 (c : Cpu) : Nat × Cpu :=
  let (a, c1) := c.read_instr8
  let (b, c2) := c1.read_instr8
  (Cpu.to16 a b, c2)

/-- Cpu::push8: store at the stack pointer, then decrement the stack
pointer by one (u16 subtraction). The memory index is a u16 cast to usize,
hence always in bounds. -/
def Cpu.push8 (c : Cpu) (value : Nat) : Option Cpu := do
  let sp ← c.read16 Cpu.SP
  let c1 := { c with memory := fun i => if i = sp then value % 256 else c.memory i }
  c1.write16 Cpu.SP ((sp + 65535) % 65536)

/-- Cpu::push16: push the low byte, then the high byte. -/
def Cpu.push16 (c : Cpu) (value : Nat) : Option Cpu := do
  let (a, b) := Cpu.to8s value
  let c1 ← c.push8 a
  c1.push8 b

/-- Cpu::pop8: increment the stack pointer by one (u16 addition), load the
byte there, store the incremented stack pointer. -/
def Cpu.pop8 (c : Cpu) : Option (Nat × Cpu) := do
  let sp0 ← c.read16 Cpu.SP
  let sp := (sp0 + 1) % 65536
  let value := c.memory sp % 256
  let c1 ← c.write16 Cpu.SP sp
  pure (value, c1)

/-- Cpu::pop16: bytes come off the stack in the opposite order they went
on; the first popped byte is used as the high byte. -/
def Cpu.pop16 (c : Cpu) : Option (Nat × Cpu) := do
  let (b, c1) ← c.pop8
  let (a, c2) ← c1.pop8
  pure (Cpu.to16 a b, c2)

/-- Cpu::set_flags: zero flag from value == 0, sign flag from bit 15. -/
def Cpu.set_flags (c : Cpu) (value : Nat) : Cpu :=
  { c with zf := decide (value % 65536 = 0), sf := decide (value % 65536 / 32768 = 1) }

/-- Cpu::jump_short: always consume the displacement byte; when the
condition holds, add it sign-extended to the instruction pointer with u16
wraparound ((offset as i8) as u16 is the sign extension). -/
def Cpu.jump_short (c : Cpu) (condition : Bool) : Cpu :=
  let (offset, c1) := c.read_instr8
  if condition then { c1 with ip := (c1.ip + Cpu.sign_extend offset) % 65536 } else c1

/-- Cpu::alu: the eight operations; Add / Adc and Sub / Sbb / Cmp use
wrapping u16 arithmetic with the result-versus-op1 carry heuristic, the
bitwise operations clear the carry; zero and sign flags are recomputed
from the computed result, and Cmp then reports op1 as its result. The
increment add += 1 / sub += 1 is a plain u16 addition. -/
def Cpu.alu (c : Cpu) (operation : Operation) (op1 op2 : Nat) : Nat × Cpu :=
  let op1 := op1 % 65536
  let op2 := op2 % 65536
  let (result, c1) :=
    match operation with
    | .Add | .Adc =>
        let add := op2
        let add := if operation = Operation.Adc ∧ c.cf = true then (add + 1) % 65536 else add
        let r := (op1 + add) % 65536
        (r, { c with cf := decide (r < op1) })
    | .Sub | .Sbb | .Cmp =>
        let sub := op2
        let sub := if operation = Operation.Sbb ∧ c.cf = true then (sub + 1) % 65536 else sub
        let r := (op1 + (65536 - sub)) % 65536
        (r, { c with cf := decide (r > op1) })
    | .And => (op1 &&& op2, { c with cf := false })
    | .Or => (op1 ||| op2, { c with cf := false })
    | .Xor => (op1 ^^^ op2, { c with cf := false })
  let c2 := c1.set_flags result
  let result := if operation = Operation.Cmp then op1 else result
  (result, c2)

/-- Cpu::read_mod_rm: decode the addressing-mode byte into an operand
pointer and the 3-bit secondary field; unsupported mode combinations
panic, modelled by none. The mod 01 displacement byte enters the address
sum as byte as u16, a zero extension. -/
def Cpu.read_mod_rm (c : Cpu) : Option (Pointer × Nat × Cpu) :=
  let (mod_rm, c1) := c.read_instr8
  let md := mod_rm / 64
  let rg_op := mod_rm / 8 % 8
  let rm := mod_rm % 8
  if md = 0 then
    if rm = 1 then do
      let bx ← c1.read16 Cpu.BX
      let di ← c1.read16 Cpu.DI
      pure (⟨.Memory, (bx + di) % 65536⟩, rg_op, c1)
    else if rm = 6 then
      let (w, c2) := c1.read_instr16
      pure (⟨.Memory, w⟩, rg_op, c2)
    else if rm = 7 then do
      let bx ← c1.read16 Cpu.BX
      pure (⟨.Memory, bx⟩, rg_op, c1)
    else none
  else if md = 1 then
    if rm = 3 then do
      let bp ← c1.read16 Cpu.BP
      let di ← c1.read16 Cpu.DI
      let (byte, c2) := c1.read_instr8
      pure (⟨.Memory, (bp + di + byte) % 65536⟩, rg_op, c2)
    else none
  else if md = 2 then
    if rm = 5 then do
      let di ← c1.read16 Cpu.DI
      let (w, c2) := c1.read_instr16
      pure (⟨.Memory, (di + w) % 65536⟩, rg_op, c2)
    else if rm = 7 then do
      let bx ← c1.read16 Cpu.BX
      let (w, c2) := c1.read_instr16
      pure (⟨.Memory, (bx + w) % 65536⟩, rg_op, c2)
    else none
  else if md = 3 then
    pure (Cpu.get_register rm, rg_op, c1)
  else none

/-- Cpu::run: fetch one opcode at the instruction pointer, advance past
it, dispatch. Returns some (true, newState) to continue, some (false,
newState) on halt or an unsupported opcode, none when the dispatched
semantics panic (unsupported mod / rm combination, Operation::from_u8
unwrap on an out-of-range code, or an out-of-bounds store). -/
def Cpu.run (c : Cpu) : Option (Bool × Cpu) :=
  let (opcode, c) := c.read_instr8
  if opcode = 0x1 ∨ opcode = 0x9 ∨ opcode = 0x19 ∨ opcode = 0x29 ∨
      opcode = 0x31 ∨ opcode = 0x39 then do
    -- 16 bit register to 16 bit r/m (the source maps 0x9 to Operation::And)
    let operation :=
      if opcode = 0x1 then Operation.Add
      else if opcode = 0x9 then Operation.And
      else if opcode = 0x19 then Operation.Sbb
      else if opcode = 0x29 then Operation.Sub
      else if opcode = 0x31 then Operation.Xor
      else Operation.Cmp
    let (rm, rg, c) ← c.read_mod_rm
    let rg := Cpu.get_register rg
    let op1 ← c.read16 rm
    let op2 ← c.read16 rg
    let (result, c) := c.alu operation op1 op2
    let c ← c.write16 rm result
    pure (true, c)
  else if opcode = 0x4 then do
    -- ADD 8 bit immediate to register AL
    let a0 ← c.read8 Cpu.AX
    let op1 := Cpu.sign_extend a0
    let (i0, c) := c.read_instr8
    let op2 := Cpu.sign_extend i0
    let (result, c) := c.alu .Add op1 op2
    let c ← c.write8 Cpu.AX result
    pure (true, c)
  else if opcode = 0x20 then do
    -- AND 8 bit register, 8 bit r/m
    let (rm, rg, c) ← c.read_mod_rm
    let rg := Cpu.get_register rg
    let a0 ← c.read8 rm
    let op1 := Cpu.sign_extend a0
    let b0 ← c.read8 rg
    let op2 := Cpu.sign_extend b0
    let (result, c) := c.alu .And op1 op2
    let c ← c.write8 rm result
    pure (true, c)
  else if opcode = 0x3c then do
    -- compare 8 bit immediate to register AL
    let a0 ← c.read8 Cpu.AX
    let op1 := Cpu.sign_extend a0
    let (i0, c) := c.read_instr8
    let op2 := Cpu.sign_extend i0
    let (_, c) := c.alu .Cmp op1 op2
    pure (true, c)
  else if 0x40 ≤ opcode ∧ opcode ≤ 0x47 then do
    -- increment 16 bit register
    let rg := Cpu.get_register opcode
    let v ← c.read16 rg
    let value := (v + 1) % 65536
    let c := c.set_flags value
    let c ← c.write16 rg value
    pure (true, c)
  else if 0x48 ≤ opcode ∧ opcode ≤ 0x4f then do
    -- decrement 16 bit register
    let rg := Cpu.get_register opcode
    let v ← c.read16 rg
    let value := (v + 65535) % 65536
    let c := c.set_flags value
    let c ← c.write16 rg value
    pure (true, c)
  else if 0x50 ≤ opcode ∧ opcode ≤ 0x57 then do
    -- push 16 bit register
    let rg := Cpu.get_register opcode
    let value ← c.read16 rg
    let c ← c.push16 value
    pure (true, c)
  else if 0x58 ≤ opcode ∧ opcode ≤ 0x5f then do
    -- pop 16 bit register
    let rg := Cpu.get_register opcode
    let (value, c) ← c.pop16
    let c ← c.write16 rg value
    pure (true, c)
  else if opcode = 0x72 then pure (true, c.jump_short c.cf)
  else if opcode = 0x74 then pure (true, c.jump_short c.zf)
  else if opcode = 0x75 then pure (true, c.jump_short (!c.zf))
  else if opcode = 0x76 then pure (true, c.jump_short (c.cf || c.zf))
  else if opcode = 0x77 then pure (true, c.jump_short (!c.cf && !c.zf))
  else if opcode = 0x79 then pure (true, c.jump_short (!c.sf))
  else if opcode = 0x80 then do
    -- 8 bit arithmetic
    let (rm, operation, c) ← c.read_mod_rm
    let a0 ← c.read8 rm
    let op1 := Cpu.sign_extend a0
    let (i0, c) := c.read_instr8
    let op2 := Cpu.sign_extend i0
    let oper ← Operation.from_u8 operation
    let (result, c) := c.alu oper op1 op2
    let c ← c.write8 rm result
    pure (true, c)
  else if opcode = 0x81 then do
    -- 16 bit arithmetic
    let (rm, operation, c) ← c.read_mod_rm
    let op1 ← c.read16 rm
    let (op2, c) := c.read_instr16
    let oper ← Operation.from_u8 operation
    let (result, c) := c.alu oper op1 op2
    let c ← c.write16 rm result
    pure (true, c)
  else if opcode = 0x83 then do
    -- 16 bit / 8 bit arithmetic
    let (rm, operation, c) ← c.read_mod_rm
    let op1 ← c.read16 rm
    let (i0, c) := c.read_instr8
    let op2 := Cpu.sign_extend i0
    let oper ← Operation.from_u8 operation
    let (result, c) := c.alu oper op1 op2
    let c ← c.write16 rm result
    pure (true, c)
  else if opcode = 0x86 then do
    -- exchange 8 bit register with 8 bit r/m
    let (rm, rg, c) ← c.read_mod_rm
    let rg := Cpu.get_register rg
    let a ← c.read8 rm
    let b ← c.read8 rg
    let c ← c.write8 rm b
    let c ← c.write8 rg a
    pure (true, c)
  else if opcode = 0x88 then do
    -- move 8 bit register to 8 bit r/m
    let (op1, rg, c) ← c.read_mod_rm
    let rg := Cpu.get_register rg
    let value ← c.read8 rg
    let c ← c.write8 op1 value
    pure (true, c)
  else if opcode = 0x89 then do
    -- move 16 bit register to 16 bit r/m
    let (op1, rg, c) ← c.read_mod_rm
    let rg := Cpu.get_register rg
    let value ← c.read16 rg
    let c ← c.write16 op1 value
    pure (true, c)
  else if opcode = 0x8a then do
    -- move 8 bit r/m to 8 bit register
    let (op1, rg, c) ← c.read_mod_rm
    let rg := Cpu.get_register rg
    let value ← c.read8 op1
    let c ← c.write8 rg value
    pure (true, c)
  else if opcode = 0x8b then do
    -- move 16 bit r/m to 16 bit register
    let (op1, rg, c) ← c.read_mod_rm
    let rg := Cpu.get_register rg
    let value ← c.read16 op1
    let c ← c.write16 rg value
    pure (true, c)
  else if opcode = 0x90 then
    -- NOP
    pure (true, c)
  else if 0x91 ≤ opcode ∧ opcode ≤ 0x97 then do
    -- exchange 16 bit register with register AX
    let rg := Cpu.get_register opcode
    let a ← c.read16 Cpu.AX
    let b ← c.read16 rg
    let c ← c.write16 Cpu.AX b
    let c ← c.write16 rg a
    pure (true, c)
  else if 0xb0 ≤ opcode ∧ opcode ≤ 0xb7 then do
    -- move 8 bit immediate to 8 bit register (stored through write16,
    -- the immediate being zero-extended by the as u16 cast)
    let rg := Cpu.get_register opcode
    let (value, c) := c.read_instr8
    let c ← c.write16 rg value
    pure (true, c)
  else if 0xb8 ≤ opcode ∧ opcode ≤ 0xbf then do
    -- move 16 bit immediate to 16 bit register
    let rg := Cpu.get_register opcode
    let (value, c) := c.read_instr16
    let c ← c.write16 rg value
    pure (true, c)
  else if opcode = 0xc3 then do
    -- return near
    let (v, c) ← c.pop16
    pure (true, { c with ip := v })
  else if opcode = 0xc7 then do
    -- move 16 bit immediate to 16 bit r/m
    let (rm, _, c) ← c.read_mod_rm
    let (value, c) := c.read_instr16
    let c ← c.write16 rm value
    pure (true, c)
  else if opcode = 0xe8 then do
    -- call relative
    let (offset, c) := c.read_instr16
    let c ← c.push16 c.ip
    pure (true, { c with ip := (c.ip + offset) % 65536 })
  else if opcode = 0xeb then
    -- jump short relative
    pure (true, c.jump_short true)
  else if opcode = 0xf4 then
    -- halt
    pure (false, c)
  else if opcode = 0xf9 then
    -- set carry flag
    pure (true, { c with cf := true })
  else if opcode = 0xfe then do
    -- increment | decrement 8 bit r/m (other sub-selectors are
    -- unreachable in the source, modelled by none)
    let (rm, md, c) ← c.read_mod_rm
    let value ←
      if md = 0 then do
        let v ← c.read8 rm
        pure ((v + 1) % 256)
      else if md = 1 then do
        let v ← c.read8 rm
        pure ((v + 255) % 256)
      else none
    let c := c.set_flags (Cpu.sign_extend value)
    let c ← c.write8 rm value
    pure (true, c)
  else
    -- unsupported opcode: reported and execution stops
    pure (false, c)

/-- Modelled from the spec: load_program (spec section 6, Program load)
copies the raw bytes of the program file to the start of memory; the file
system read itself is outside the embedded core. -/
def Cpu.load_bytes (c : Cpu) (prog : List Nat) : Cpu :=
  { c with memory := fun i => if i < prog.length then prog.getD i 0 % 256 else c.memory i }

/-- The all-zero processor state, used as a base for concrete test states. -/
def cpu0 : Cpu :=
  { memory := fun _ => 0, ip := 0, regs := fun _ => 0,
    cf := false, zf := false, sf := false }

/-- Concrete state for claim C2: the all-zero state with the carry flag set. -/
def c2state : Cpu := { cpu0 with cf := true }

/-- Concrete state for claim C3: register 0 holds 0xFF00 and the program
bytes are B0 05 (move 8 bit immediate 0x05 to register 0). -/
def c3state : Cpu :=
  { cpu0 with
    memory := fun i => if i = 0 then 0xb0 else if i = 1 then 0x05 else 0,
    regs := fun i => if i = 1 then 0xff else 0 }

/-- Concrete state for claim C4: BP = 0, DI = 0, and the instruction
stream holds the addressing-mode byte 0x43 (mod 01, reg 000, r/m 011)
followed by the displacement byte 0xFF. -/
def c4state : Cpu :=
  { cpu0 with memory := fun i => if i = 0 then 0x43 else if i = 1 then 0xff else 0 }

/-- Program of claim C9: move immediate 0x0005 into register 0, halt. -/
def c9prog : List Nat := [0xb8, 0x05, 0x00, 0xf4]

/-- Claim C1, code bug: a 16-bit word access whose low byte lies at the
last offset of its space does not wrap to offset 0 of that space; the
high-byte offset is computed with usize (not 16-bit) wraparound, so
read16 / write16 on a memory reference at address 0xFFFF index position
0x10000 and fail with a bounds violation (a panic in the source), and a
register-space word access at offset 15 fails the same way, contrary to
the claimed wraparound without bounds failure. -/
theorem claim_C1_word_access_at_top_fails (c : Cpu) (v : Nat) :
    c.read16 ⟨.Memory, 0xffff⟩ = none ∧
    c.write16 ⟨.Memory, 0xffff⟩ v = none ∧
    c.read16 ⟨.Register, 15⟩ = none := by
  refine ⟨?_, ?_, ?_⟩ <;>
    simp [Cpu.read16, Cpu.write16, Cpu.read8, Cpu.write8, Cpu.to8s, USIZE_MOD]

/-- Claim C2, code bug: with the carry flag set, Adc with op2 = 0xFFFF
increments the addend past the u16 range (a panic in debug builds; the
wrapped addend is 0), so the result is op1 = 0 as the claim demands, but
the carry flag afterwards is clear although the mathematical sum
0 + 0xFFFF + 1 exceeds 0xFFFF, contradicting the claimed unsigned
overflow detection. -/
theorem claim_C2_adc_carry_edge :
    (c2state.alu .Adc 0 0xffff).1 = 0 ∧
    (c2state.alu .Adc 0 0xffff).2.cf = false ∧
    0xffff < 0 + 0xffff + 1 := by decide

/-- Claim C3, counterexample: with register 0 holding 0xFF00, executing
the move-immediate instruction B0 05 leaves register 0 equal to 0x0005,
so the upper byte of the register slot is overwritten with zero rather
than keeping its previous value 0xFF. -/
theorem claim_C3_counterexample :
    c3state.regs 1 = 0xff ∧
    (c3state.run).map (fun r => (r.1, r.2.regs 0, r.2.regs 1)) =
      some (true, 0x05, 0) := by decide

/-- Claim C4, code bug: with BP = 0 and DI = 0, the mod 01 / r-m 011
addressing mode with displacement byte 0xFF resolves to memory address
0x00FF: the displacement is zero-extended by the byte as u16 cast,
whereas the claimed sign extension would give BP + DI + 0xFFFF = 0xFFFF,
so a displacement byte in 0x80 to 0xFF adds to BP + DI instead of
subtracting from it. -/
theorem claim_C4_disp8_not_sign_extended :
    (c4state.read_mod_rm).map (fun t => t.1) = some ⟨.Memory, 0x00ff⟩ ∧
    (0 + 0 + Cpu.sign_extend 0xff) % 65536 = 0xffff := by decide

/-- Claim C5, counterexample: from the initial state (stack pointer
0x100), push16 0x1234 stores the low byte 0x34 at address 0x100 and the
high byte 0x12 at address 0xFF, so the high byte ends at the lower stack
address, not the higher one as claimed: the 16-bit push writes the low
byte first. -/
theorem claim_C5_counterexample :
    (Cpu.new.bind (fun c => c.push16 0x1234)).map
        (fun c => (c.memory 0x100, c.memory 0xff)) = some (0x34, 0x12) ∧
    (0x34 : Nat) ≠ 0x12 := by decide

/-- Claim C9: from the initial processor state with the program
B8 05 00 F4 loaded at address 0, the first step continues, the second
step signals halt, and afterwards register 0 holds 0x0005. -/
theorem claim_C9_end_to_end :
    ((Cpu.new.map (fun c => c.load_bytes c9prog)).bind Cpu.run).map
        (fun r => r.1) = some true ∧
    (((Cpu.new.map (fun c => c.load_bytes c9prog)).bind Cpu.run).bind
        (fun r => r.2.run)).map (fun r => r.1) = some false ∧
    (((Cpu.new.map (fun c => c.load_bytes c9prog)).bind Cpu.run).bind
        (fun r => r.2.run)).bind (fun r => r.2.read16 Cpu.AX) = some 0x0005 := by
  decide

theorem Cpu.to16_lt (a b : Nat) : Cpu.to16 a b < 65536 := by
  have ha : a % 256 < 256 := Nat.mod_lt _ (by norm_num)
  have hb : b % 256 < 256 := Nat.mod_lt _ (by norm_num)
  unfold Cpu.to16
  omega

theorem Cpu.to16_mod256 (a b : Nat) :
    Cpu.to16 (a % 256) (b % 256) = Cpu.to16 a b := by
  simp [Cpu.to16, Nat.mod_mod_of_dvd]

theorem Cpu.to16_split (n : Nat) (h : n < 65536) :
    Cpu.to16 (n % 256) (n / 256 % 256) = n := by
  have h1 : n % 256 < 256 := Nat.mod_lt _ (by norm_num)
  have h2 : n / 256 % 256 = n / 256 := by
    have : n / 256 < 256 := by omega
    exact Nat.mod_eq_of_lt this
  simp only [Cpu.to16, Nat.mod_mod_of_dvd _ (dvd_refl 256), h2]
  omega

theorem Cpu.read16_reg (c : Cpu) (o : Nat) (h : o + 1 < 16) :
    c.read16 ⟨.Register, o⟩ = some (Cpu.to16 (c.regs o) (c.regs (o + 1))) := by
  have h64 : (o + 1) % USIZE_MOD = o + 1 :=
    Nat.mod_eq_of_lt (by unfold USIZE_MOD; omega)
  simp [Cpu.read16, Cpu.read8, h64, Nat.lt_of_succ_lt h, h, Cpu.to16_mod256]

theorem Cpu.read16_SP (c : Cpu) :
    c.read16 Cpu.SP = some (Cpu.to16 (c.regs 8) (c.regs 9)) :=
  Cpu.read16_reg c 8 (by norm_num)

theorem Cpu.read16_AX (c : Cpu) :
    c.read16 Cpu.AX = some (Cpu.to16 (c.regs 0) (c.regs 1)) :=
  Cpu.read16_reg c 0 (by norm_num)

theorem Cpu.read16_BX (c : Cpu) :
    c.read16 Cpu.BX = some (Cpu.to16 (c.regs 6) (c.regs 7)) :=
  Cpu.read16_reg c 6 (by norm_num)

theorem Cpu.read16_BP (c : Cpu) :
    c.read16 Cpu.BP = some (Cpu.to16 (c.regs 10) (c.regs 11)) :=
  Cpu.read16_reg c 10 (by norm_num)

theorem Cpu.read16_DI (c : Cpu) :
    c.read16 Cpu.DI = some (Cpu.to16 (c.regs 14) (c.regs 15)) :=
  Cpu.read16_reg c 14 (by norm_num)

theorem Cpu.write16_reg (c : Cpu) (o v : Nat) (h : o + 1 < 16) :
    c.write16 ⟨.Register, o⟩ v = some
      { c with regs := fun i =>
          if i = o + 1 then v / 256 % 256
          else if i = o then v % 256 else c.regs i } := by
  have h64 : (o + 1) % USIZE_MOD = o + 1 :=
    Nat.mod_eq_of_lt (by unfold USIZE_MOD; omega)
  simp only [Cpu.write16, Cpu.write8, Cpu.to8s, h64, Nat.lt_of_succ_lt h, h,
    if_pos, Option.bind_eq_bind, Option.some_bind]
  congr 1
  congr 1
  funext i
  by_cases h1 : i = o + 1 <;> by_cases h2 : i = o <;>
    simp [h1, h2, Nat.mod_mod_of_dvd]

theorem Cpu.write16_SP (c : Cpu) (v : Nat) :
    c.write16 Cpu.SP v = some
      { c with regs := fun i =>
          if i = 9 then v / 256 % 256
          else if i = 8 then v % 256 else c.regs i } :=
  Cpu.write16_reg c 8 v (by norm_num)

theorem Cpu.push8_eq (c : Cpu) (v : Nat) :
    c.push8 v = some
      { c with
        memory := fun i =>
          if i = Cpu.to16 (c.regs 8) (c.regs 9) then v % 256 else c.memory i,
        regs := fun i =>
          if i = 9 then (Cpu.to16 (c.regs 8) (c.regs 9) + 65535) % 65536 / 256 % 256
          else if i = 8 then (Cpu.to16 (c.regs 8) (c.regs 9) + 65535) % 65536 % 256
          else c.regs i } := by
  simp only [Cpu.push8, Cpu.read16_SP, Option.bind_eq_bind, Option.some_bind,
    Cpu.write16_SP]

theorem Cpu.pop8_eq (c : Cpu) :
    c.pop8 = some
      (c.memory ((Cpu.to16 (c.regs 8) (c.regs 9) + 1) % 65536) % 256,
       { c with regs := fun i =>
          if i = 9 then (Cpu.to16 (c.regs 8) (c.regs 9) + 1) % 65536 / 256 % 256
          else if i = 8 then (Cpu.to16 (c.regs 8) (c.regs 9) + 1) % 65536 % 256
          else c.regs i }) := by
  simp only [Cpu.pop8, Cpu.read16_SP, Option.bind_eq_bind, Option.some_bind,
    Cpu.write16_SP, Option.pure_def]

/-- Claim C6: for every 16-bit value x and every processor state, push16 x
immediately followed by pop16 returns x, and afterwards the stack pointer
register reads back exactly as it did before the push. -/
theorem claim_C6_push_pop_roundtrip (c : Cpu) (x : Nat) (hx : x < 65536) :
    ((c.push16 x).bind Cpu.pop16).map (fun r => r.1) = some x ∧
    ((c.push16 x).bind Cpu.pop16).bind (fun r => r.2.read16 Cpu.SP) =
      c.read16 Cpu.SP := by
  have hSlt : Cpu.to16 (c.regs 8) (c.regs 9) < 65536 := Cpu.to16_lt _ _
  set S := Cpu.to16 (c.regs 8) (c.regs 9) with hSdef
  set S1 := (S + 65535) % 65536 with hS1def
  set S2 := (S1 + 65535) % 65536 with hS2def
  have hS1lt : S1 < 65536 := by omega
  have hS2lt : S2 < 65536 := by omega
  have hne : ¬ (S = S1) := by omega
  have hne2 : ¬ (S1 = S) := by omega
  have hb1 : (S2 + 1) % 65536 = S1 := by omega
  have hb2 : (S1 + 1) % 65536 = S := by omega
  simp only [Cpu.push16, Cpu.to8s, Cpu.pop16, Option.bind_eq_bind,
    Option.some_bind, Cpu.push8_eq, Cpu.pop8_eq]
  simp only [← hSdef]
  simp only [Nat.mod_mod_of_dvd _ (dvd_refl 256), ← hS1def]
  simp
  rw [Cpu.to16_split S1 hS1lt]
  simp only [← hS2def]
  rw [Cpu.to16_split S2 hS2lt, hb1]
  simp [hne, hne2, hb2]
  rw [Cpu.to16_split S1 hS1lt, hb2]
  simp [hne, hne2]
  constructor
  · rw [Cpu.to16_split x hx]
  · rw [Cpu.read16_SP, Cpu.read16_SP]
    simp
    rw [Cpu.to16_split S hSlt]

/-- Claim C6 witness: the roundtrip theorem applied at the all-zero state
and the value 0xABCD. -/
theorem claim_C6_push_pop_roundtrip_witness :
    ((cpu0.push16 0xabcd).bind Cpu.pop16).map (fun r => r.1) = some 0xabcd ∧
    ((cpu0.push16 0xabcd).bind Cpu.pop16).bind (fun r => r.2.read16 Cpu.SP) =
      cpu0.read16 Cpu.SP :=
  claim_C6_push_pop_roundtrip cpu0 0xabcd (by norm_num)

/-- Claim C10: every register-kind operand reference the program
constructs, through get_register on any byte or through the named
register constants, has an even byte offset at most 14, and byte and word
reads and writes on any such register reference succeed without reaching
the out-of-bounds branch. -/
theorem claim_C10_register_access_in_bounds :
    (∀ b : Nat, (Cpu.get_register b).rm = RegisterMemory.Register ∧
        (Cpu.get_register b).offset % 2 = 0 ∧ (Cpu.get_register b).offset ≤ 14) ∧
    (∀ p ∈ [Cpu.AX, Cpu.BX, Cpu.SP, Cpu.BP, Cpu.DI],
        p.rm = RegisterMemory.Register ∧ p.offset % 2 = 0 ∧ p.offset ≤ 14) ∧
    (∀ (c : Cpu) (p : Pointer) (v : Nat), p.rm = RegisterMemory.Register →
        p.offset ≤ 14 →
        (c.read8 p).isSome ∧ (c.read16 p).isSome ∧
        (c.write8 p v).isSome ∧ (c.write16 p v).isSome) := by
  refine ⟨fun b => ?_, by decide, fun c p v hrm ho => ?_⟩
  · have hb : b % 8 < 8 := Nat.mod_lt _ (by norm_num)
    refine ⟨rfl, ?_, ?_⟩ <;> simp only [Cpu.get_register, REG_WIDTH] <;> omega
  · rcases p with ⟨rm, o⟩
    cases rm
    · simp only at ho
      refine ⟨?_, ?_, ?_, ?_⟩
      · simp [Cpu.read8, show o < 16 by omega]
      · rw [Cpu.read16_reg c o (by omega)]; rfl
      · simp [Cpu.write8, show o < 16 by omega]
      · rw [Cpu.write16_reg c o v (by omega)]; rfl
    · exact absurd hrm (by simp)

/-- Claim C10 witness: in-bounds register access at a concrete register
number and the DI register constant on the all-zero state. -/
theorem claim_C10_register_access_in_bounds_witness :
    (Cpu.get_register 0xb3).offset ≤ 14 ∧
    (cpu0.read16 Cpu.DI).isSome ∧ (cpu0.write16 Cpu.DI 0xffff).isSome :=
  ⟨(claim_C10_register_access_in_bounds.1 0xb3).2.2,
   (claim_C10_register_access_in_bounds.2.2 cpu0 Cpu.DI 0xffff (by decide)
      (by decide)).2.1,
   (claim_C10_register_access_in_bounds.2.2 cpu0 Cpu.DI 0xffff (by decide)
      (by decide)).2.2.2⟩

theorem Cpu.sign_extend_mod (a : Nat) :
    Cpu.sign_extend (a % 256) = Cpu.sign_extend a := by
  simp [Cpu.sign_extend, Nat.mod_mod_of_dvd]

/-- Claim C7: each conditional short jump (0x72 carry set, 0x74 zero set,
0x75 zero clear, 0x76 carry or zero, 0x77 neither carry nor zero, 0x79
sign clear) always consumes its displacement byte — the instruction
pointer advances past it whether or not the branch is taken — and
additionally adds the sign-extended 8-bit displacement with 16-bit
wraparound exactly when the condition holds; flags, registers and memory
are unchanged. -/
theorem claim_C7_conditional_jumps (c : Cpu) (op : Nat) (cond : Bool)
    (hop : (op = 0x72 ∧ cond = c.cf) ∨ (op = 0x74 ∧ cond = c.zf) ∨
      (op = 0x75 ∧ cond = !c.zf) ∨ (op = 0x76 ∧ cond = (c.cf || c.zf)) ∨
      (op = 0x77 ∧ cond = (!c.cf && !c.zf)) ∨ (op = 0x79 ∧ cond = !c.sf))
    (hmem : c.memory c.ip = op) :
    (c.run).map (fun r => r.1) = some true ∧
    (c.run).map (fun r => r.2.ip) = some (if cond then
        (c.ip + 2 + Cpu.sign_extend (c.memory ((c.ip + 1) % 65536))) % 65536
      else (c.ip + 2) % 65536) ∧
    (c.run).map (fun r => (r.2.memory, r.2.regs, r.2.cf, r.2.zf, r.2.sf)) =
      some (c.memory, c.regs, c.cf, c.zf, c.sf) := by
  rcases hop with ⟨h1, h2⟩ | ⟨h1, h2⟩ | ⟨h1, h2⟩ | ⟨h1, h2⟩ | ⟨h1, h2⟩ |
    ⟨h1, h2⟩ <;> subst h1 <;>
  · simp only [Cpu.run, Cpu.read_instr8, Cpu.jump_short, hmem]
    rw [← h2]
    cases cond <;> simp [Cpu.sign_extend_mod]

/-- Concrete state for the claim C7 witness: zero flag set and the
program bytes 74 05 (jump of 5 if zero) at address 0. -/
def c7state : Cpu :=
  { cpu0 with
    zf := true,
    memory := fun i => if i = 0 then 0x74 else if i = 1 then 0x05 else 0 }

/-- Claim C7 witness: the conditional jump theorem applied to a taken
jump-if-zero at a concrete state. -/
theorem claim_C7_conditional_jumps_witness :
    (c7state.run).map (fun r => r.1) = some true :=
  (claim_C7_conditional_jumps c7state 0x74 true
    (Or.inr (Or.inl ⟨rfl, rfl⟩)) (by decide)).1

/-- Claim C3, amended: executing an 0xB0-0xB7 move-8-bit-immediate
instruction stores the zero-extended immediate into the full 16-bit
register slot selected by the low three opcode bits: the low byte becomes
the immediate byte and the upper byte becomes 0 (the upper byte is
overwritten, not preserved), and the instruction pointer advances past
the immediate. -/
theorem claim_C3_move8_zero_extends (c : Cpu) (op : Nat)
    (h1 : 0xb0 ≤ op) (h2 : op ≤ 0xb7) (hmem : c.memory c.ip = op) :
    (c.run).map (fun r => r.1) = some true ∧
    (c.run).map (fun r => r.2.regs (op % 8 * 2)) =
      some (c.memory ((c.ip + 1) % 65536) % 256) ∧
    (c.run).map (fun r => r.2.regs (op % 8 * 2 + 1)) = some 0 ∧
    (c.run).map (fun r => r.2.ip) = some ((c.ip + 2) % 65536) := by
  interval_cases op <;>
  · refine ⟨?_, ?_, ?_, ?_⟩ <;>
      simp [Cpu.run, Cpu.read_instr8, hmem, Cpu.get_register, REG_WIDTH,
        Cpu.write16_reg]

/-- Claim C3 amended witness: the move-immediate theorem applied at the
concrete counterexample state, showing the upper register byte 0. -/
theorem claim_C3_move8_zero_extends_witness :
    (c3state.run).map (fun r => r.2.regs (0xb0 % 8 * 2 + 1)) = some 0 :=
  (claim_C3_move8_zero_extends c3state 0xb0 (by norm_num) (by norm_num)
    (by decide)).2.2.1

/-- Claim C5, amended: the 16-bit push writes the LOW byte first, then
the high byte, each via a single-byte push, so the low byte ends at the
starting stack-pointer address and the high byte one address below it
(with 16-bit wraparound), the stack pointer dropping by two; and the
16-bit pop retrieves the byte at the next higher address FIRST and uses
it as the HIGH byte, then the byte after it as the low byte, reassembling
the word from those two bytes. -/
theorem claim_C5_push_pop_byte_order (c : Cpu) (sp v : Nat)
    (hsp : c.read16 Cpu.SP = some sp) :
    (∃ c2, c.push16 v = some c2 ∧
      c2.memory sp = v % 256 ∧
      c2.memory ((sp + 65535) % 65536) = v / 256 % 256 ∧
      c2.read16 Cpu.SP = some ((sp + 65534) % 65536)) ∧
    (c.pop16).map (fun r => r.1) =
      some (Cpu.to16 (c.memory ((sp + 2) % 65536))
        (c.memory ((sp + 1) % 65536))) := by
  rw [Cpu.read16_SP] at hsp
  obtain rfl := Option.some.inj hsp
  have hSlt : Cpu.to16 (c.regs 8) (c.regs 9) < 65536 := Cpu.to16_lt _ _
  set S := Cpu.to16 (c.regs 8) (c.regs 9) with hS
  set S1 := (S + 65535) % 65536 with hS1
  have hS1lt : S1 < 65536 := by omega
  have hne : ¬ (S = S1) := by omega
  constructor
  · simp only [Cpu.push16, Cpu.to8s, Option.bind_eq_bind, Option.some_bind,
      Cpu.push8_eq]
    simp only [← hS]
    simp only [Nat.mod_mod_of_dvd _ (dvd_refl 256), ← hS1]
    simp
    rw [Cpu.to16_split S1 hS1lt]
    refine ⟨fun h => absurd h hne, fun h => absurd rfl h, ?_⟩
    rw [Cpu.read16_SP]
    simp
    rw [Cpu.to16_split ((S1 + 65535) % 65536) (by omega)]
    omega
  · simp only [Cpu.pop16, Option.bind_eq_bind, Option.some_bind, Cpu.pop8_eq]
    simp only [← hS]
    simp
    rw [Cpu.to16_split ((S + 1) % 65536) (by omega)]
    have h2 : ((S + 1) % 65536 + 1) % 65536 = (S + 2) % 65536 := by omega
    rw [h2, Cpu.to16_mod256]

/-- Claim C5 amended witness: the byte-order theorem applied at the
all-zero state (stack pointer reads 0) and the value 0x1234. -/
theorem claim_C5_push_pop_byte_order_witness :
    (cpu0.pop16).map (fun r => r.1) =
      some (Cpu.to16 (cpu0.memory ((0 + 2) % 65536))
        (cpu0.memory ((0 + 1) % 65536))) :=
  (claim_C5_push_pop_byte_order cpu0 0 0x1234 (by decide)).2

theorem Cpu.write8_flags {c c2 : Cpu} {p : Pointer} {v : Nat}
    (h : c.write8 p v = some c2) :
    c2.cf = c.cf ∧ c2.zf = c.zf ∧ c2.sf = c.sf ∧ c2.ip = c.ip := by
  rcases p with ⟨rm, o⟩
  cases rm <;> simp only [Cpu.write8] at h <;> split at h <;>
    first
      | exact Option.noConfusion h
      | (obtain rfl := Option.some.inj h; exact ⟨rfl, rfl, rfl, rfl⟩)

theorem Cpu.write16_flags {c c2 : Cpu} {p : Pointer} {v : Nat}
    (h : c.write16 p v = some c2) :
    c2.cf = c.cf ∧ c2.zf = c.zf ∧ c2.sf = c.sf ∧ c2.ip = c.ip := by
  simp only [Cpu.write16, Cpu.to8s, Option.bind_eq_bind] at h
  rcases h1 : c.write8 p (v % 256) with _ | c1
  · rw [h1] at h; simp at h
  · rw [h1] at h
    simp only [Option.some_bind] at h
    have A := Cpu.write8_flags h1
    have B := Cpu.write8_flags h
    exact ⟨B.1.trans A.1, B.2.1.trans A.2.1, B.2.2.1.trans A.2.2.1,
      B.2.2.2.trans A.2.2.2⟩

theorem Cpu.read_mod_rm_flags {c : Cpu} {p : Pointer} {g : Nat} {c2 : Cpu}
    (h : c.read_mod_rm = some (p, g, c2)) :
    c2.cf = c.cf ∧ c2.zf = c.zf ∧ c2.sf = c.sf ∧
    c2.regs = c.regs ∧ c2.memory = c.memory := by
  simp only [Cpu.read_mod_rm, Cpu.read_instr8, Cpu.read_instr16,
    Cpu.read16_BX, Cpu.read16_DI, Cpu.read16_BP, Option.bind_eq_bind,
    Option.some_bind, Option.pure_def] at h
  split_ifs at h <;>
    first
      | exact Option.noConfusion h
      | (simp only [Option.some.injEq, Prod.mk.injEq] at h;
         obtain ⟨h1, h2, rfl⟩ := h; exact ⟨rfl, rfl, rfl, rfl, rfl⟩)

theorem Cpu.sign_extend_lt (a : Nat) : Cpu.sign_extend a < 65536 := by
  have : a % 256 < 256 := Nat.mod_lt _ (by norm_num)
  unfold Cpu.sign_extend
  split <;> omega

theorem Cpu.alu_recomputes_zf_sf (c : Cpu) (oper : Operation) (op1 op2 : Nat)
    (hne : oper ≠ Operation.Cmp) :
    (c.alu oper op1 op2).2.zf = decide ((c.alu oper op1 op2).1 = 0) ∧
    (c.alu oper op1 op2).2.sf = decide ((c.alu oper op1 op2).1 / 32768 = 1) := by
  have h1 : op1 % 65536 < 65536 := Nat.mod_lt _ (by norm_num)
  have h2 : op2 % 65536 < 65536 := Nat.mod_lt _ (by norm_num)
  have hand : op1 % 65536 &&& op2 % 65536 < 65536 := by
    have := Nat.and_lt_two_pow (op1 % 65536) (show op2 % 65536 < 2 ^ 16 by omega)
    omega
  have hor : op1 % 65536 ||| op2 % 65536 < 65536 := by
    have := Nat.or_lt_two_pow (show op1 % 65536 < 2 ^ 16 by omega)
      (show op2 % 65536 < 2 ^ 16 by omega)
    omega
  have hxor : op1 % 65536 ^^^ op2 % 65536 < 65536 := by
    have := Nat.xor_lt_two_pow (show op1 % 65536 < 2 ^ 16 by omega)
      (show op2 % 65536 < 2 ^ 16 by omega)
    omega
  cases oper <;>
    first
      | exact absurd rfl hne
      | (constructor <;>
          simp [Cpu.alu, Cpu.set_flags, Nat.mod_mod_of_dvd,
            Nat.mod_eq_of_lt hand, Nat.mod_eq_of_lt hor, Nat.mod_eq_of_lt hxor])

theorem Cpu.alu_cmp_flags_eq_sub (c : Cpu) (op1 op2 : Nat) :
    (c.alu .Cmp op1 op2).2 = (c.alu .Sub op1 op2).2 := rfl

theorem Cpu.inc16_recomputes_zf_sf (c : Cpu) (op : Nat)
    (h1 : 0x40 ≤ op) (h2 : op ≤ 0x47) (hmem : c.memory c.ip = op) :
    (c.run).map (fun r => (r.1, r.2.zf, r.2.sf)) = some (true,
      decide ((Cpu.to16 (c.regs (op % 8 * 2)) (c.regs (op % 8 * 2 + 1)) + 1)
        % 65536 = 0),
      decide ((Cpu.to16 (c.regs (op % 8 * 2)) (c.regs (op % 8 * 2 + 1)) + 1)
        % 65536 / 32768 = 1)) := by
  interval_cases op <;>
    simp [Cpu.run, Cpu.read_instr8, hmem, Cpu.get_register, REG_WIDTH,
      Cpu.read16_reg, Cpu.write16_reg, Cpu.set_flags, Nat.mod_mod_of_dvd]

theorem Cpu.dec16_recomputes_zf_sf (c : Cpu) (op : Nat)
    (h1 : 0x48 ≤ op) (h2 : op ≤ 0x4f) (hmem : c.memory c.ip = op) :
    (c.run).map (fun r => (r.1, r.2.zf, r.2.sf)) = some (true,
      decide ((Cpu.to16 (c.regs (op % 8 * 2)) (c.regs (op % 8 * 2 + 1)) + 65535)
        % 65536 = 0),
      decide ((Cpu.to16 (c.regs (op % 8 * 2)) (c.regs (op % 8 * 2 + 1)) + 65535)
        % 65536 / 32768 = 1)) := by
  interval_cases op <;>
    simp [Cpu.run, Cpu.read_instr8, hmem, Cpu.get_register, REG_WIDTH,
      Cpu.read16_reg, Cpu.write16_reg, Cpu.set_flags, Nat.mod_mod_of_dvd]


theorem Cpu.moves_preserve_flags (c : Cpu) (op : Nat) (k : Bool) (c2 : Cpu)
    (hop : op = 0x86 ∨ op = 0x88 ∨ op = 0x89 ∨ op = 0x8a ∨ op = 0x8b ∨
      op = 0x90 ∨ (0x91 ≤ op ∧ op ≤ 0x97) ∨ (0xb0 ≤ op ∧ op ≤ 0xbf) ∨
      op = 0xc7)
    (hmem : c.memory c.ip = op)
    (hrun : c.run = some (k, c2)) :
    c2.cf = c.cf ∧ c2.zf = c.zf ∧ c2.sf = c.sf := by
  rcases hop with rfl | rfl | rfl | rfl | rfl | rfl | ⟨ha, hb⟩ | ⟨ha, hb⟩ | rfl
  · -- 0x86 exchange 8 bit register with 8 bit r/m
    simp [Cpu.run, Cpu.read_instr8, hmem] at hrun
    rcases hmr : ({ c with ip := (c.ip + 1) % 65536 } : Cpu).read_mod_rm with
      _ | ⟨p, g, c1⟩ <;> rw [hmr] at hrun
    · simp at hrun
    · simp at hrun
      rw [Option.bind_eq_some] at hrun
      obtain ⟨a, hra, hrun⟩ := hrun
      rw [Option.bind_eq_some] at hrun
      obtain ⟨b, hrb, hrun⟩ := hrun
      rw [Option.bind_eq_some] at hrun
      obtain ⟨c3, hw1, hrun⟩ := hrun
      rw [Option.bind_eq_some] at hrun
      obtain ⟨c4, hw2, hrun⟩ := hrun
      obtain ⟨hk, hc⟩ := Prod.mk.inj (Option.some.inj hrun)
      subst hc
      have F1 := Cpu.read_mod_rm_flags hmr
      have F2 := Cpu.write8_flags hw1
      have F3 := Cpu.write8_flags hw2
      exact ⟨(F3.1.trans F2.1).trans F1.1, (F3.2.1.trans F2.2.1).trans F1.2.1,
        (F3.2.2.1.trans F2.2.2.1).trans F1.2.2.1⟩
  · -- 0x88 move 8 bit register to 8 bit r/m
    simp [Cpu.run, Cpu.read_instr8, hmem] at hrun
    rcases hmr : ({ c with ip := (c.ip + 1) % 65536 } : Cpu).read_mod_rm with
      _ | ⟨p, g, c1⟩ <;> rw [hmr] at hrun
    · simp at hrun
    · simp at hrun
      rw [Option.bind_eq_some] at hrun
      obtain ⟨a, hra, hrun⟩ := hrun
      rw [Option.bind_eq_some] at hrun
      obtain ⟨c3, hw1, hrun⟩ := hrun
      obtain ⟨hk, hc⟩ := Prod.mk.inj (Option.some.inj hrun)
      subst hc
      have F1 := Cpu.read_mod_rm_flags hmr
      have F2 := Cpu.write8_flags hw1
      exact ⟨F2.1.trans F1.1, F2.2.1.trans F1.2.1, F2.2.2.1.trans F1.2.2.1⟩
  · -- 0x89 move 16 bit register to 16 bit r/m
    simp [Cpu.run, Cpu.read_instr8, hmem] at hrun
    rcases hmr : ({ c with ip := (c.ip + 1) % 65536 } : Cpu).read_mod_rm with
      _ | ⟨p, g, c1⟩ <;> rw [hmr] at hrun
    · simp at hrun
    · simp at hrun
      rw [Option.bind_eq_some] at hrun
      obtain ⟨a, hra, hrun⟩ := hrun
      rw [Option.bind_eq_some] at hrun
      obtain ⟨c3, hw1, hrun⟩ := hrun
      obtain ⟨hk, hc⟩ := Prod.mk.inj (Option.some.inj hrun)
      subst hc
      have F1 := Cpu.read_mod_rm_flags hmr
      have F2 := Cpu.write16_flags hw1
      exact ⟨F2.1.trans F1.1, F2.2.1.trans F1.2.1, F2.2.2.1.trans F1.2.2.1⟩
  · -- 0x8a move 8 bit r/m to 8 bit register
    simp [Cpu.run, Cpu.read_instr8, hmem] at hrun
    rcases hmr : ({ c with ip := (c.ip + 1) % 65536 } : Cpu).read_mod_rm with
      _ | ⟨p, g, c1⟩ <;> rw [hmr] at hrun
    · simp at hrun
    · simp at hrun
      rw [Option.bind_eq_some] at hrun
      obtain ⟨a, hra, hrun⟩ := hrun
      rw [Option.bind_eq_some] at hrun
      obtain ⟨c3, hw1, hrun⟩ := hrun
      obtain ⟨hk, hc⟩ := Prod.mk.inj (Option.some.inj hrun)
      subst hc
      have F1 := Cpu.read_mod_rm_flags hmr
      have F2 := Cpu.write8_flags hw1
      exact ⟨F2.1.trans F1.1, F2.2.1.trans F1.2.1, F2.2.2.1.trans F1.2.2.1⟩
  · -- 0x8b move 16 bit r/m to 16 bit register
    simp [Cpu.run, Cpu.read_instr8, hmem] at hrun
    rcases hmr : ({ c with ip := (c.ip + 1) % 65536 } : Cpu).read_mod_rm with
      _ | ⟨p, g, c1⟩ <;> rw [hmr] at hrun
    · simp at hrun
    · simp at hrun
      rw [Option.bind_eq_some] at hrun
      obtain ⟨a, hra, hrun⟩ := hrun
      rw [Option.bind_eq_some] at hrun
      obtain ⟨c3, hw1, hrun⟩ := hrun
      obtain ⟨hk, hc⟩ := Prod.mk.inj (Option.some.inj hrun)
      subst hc
      have F1 := Cpu.read_mod_rm_flags hmr
      have F2 := Cpu.write16_flags hw1
      exact ⟨F2.1.trans F1.1, F2.2.1.trans F1.2.1, F2.2.2.1.trans F1.2.2.1⟩
  · -- 0x90 NOP
    simp [Cpu.run, Cpu.read_instr8, hmem] at hrun
    obtain ⟨hk, rfl⟩ := hrun
    exact ⟨rfl, rfl, rfl⟩
  · -- 0x91 to 0x97 exchange 16 bit register with register AX
    interval_cases op <;>
    · simp [Cpu.run, Cpu.read_instr8, hmem] at hrun
      rw [Option.bind_eq_some] at hrun
      obtain ⟨a, hra, hrun⟩ := hrun
      rw [Option.bind_eq_some] at hrun
      obtain ⟨b, hrb, hrun⟩ := hrun
      rw [Option.bind_eq_some] at hrun
      obtain ⟨c3, hw1, hrun⟩ := hrun
      rw [Option.bind_eq_some] at hrun
      obtain ⟨c4, hw2, hrun⟩ := hrun
      obtain ⟨hk, hc⟩ := Prod.mk.inj (Option.some.inj hrun)
      subst hc
      have F1 := Cpu.write16_flags hw1
      have F2 := Cpu.write16_flags hw2
      exact ⟨F2.1.trans F1.1, F2.2.1.trans F1.2.1, F2.2.2.1.trans F1.2.2.1⟩
  · -- 0xb0 to 0xbf immediate moves into registers
    interval_cases op <;>
    · simp [Cpu.run, Cpu.read_instr8, hmem] at hrun
      rw [Option.bind_eq_some] at hrun
      obtain ⟨c3, hw1, hrun⟩ := hrun
      obtain ⟨hk, hc⟩ := Prod.mk.inj (Option.some.inj hrun)
      subst hc
      have F1 := Cpu.write16_flags hw1
      exact ⟨F1.1, F1.2.1, F1.2.2.1⟩
  · -- 0xc7 move 16 bit immediate to 16 bit r/m
    simp [Cpu.run, Cpu.read_instr8, Cpu.read_instr16, hmem] at hrun
    rcases hmr : ({ c with ip := (c.ip + 1) % 65536 } : Cpu).read_mod_rm with
      _ | ⟨p, g, c1⟩ <;> rw [hmr] at hrun
    · simp at hrun
    · simp at hrun
      rw [Option.bind_eq_some] at hrun
      obtain ⟨c3, hw1, hrun⟩ := hrun
      obtain ⟨hk, hc⟩ := Prod.mk.inj (Option.some.inj hrun)
      subst hc
      have F1 := Cpu.read_mod_rm_flags hmr
      have F2 := Cpu.write16_flags hw1
      exact ⟨F2.1.trans F1.1, F2.2.1.trans F1.2.1, F2.2.2.1.trans F1.2.2.1⟩

theorem Cpu.write8_isSome_of_read8 {c : Cpu} {p : Pointer} {v0 : Nat}
    (h : c.read8 p = some v0) (c' : Cpu) (v : Nat) :
    (c'.write8 p v).isSome := by
  rcases p with ⟨rm, o⟩
  cases rm <;> simp only [Cpu.read8] at h <;> split at h <;>
    first
      | exact Option.noConfusion h
      | (rename_i ho; simp [Cpu.write8, ho])

theorem Cpu.incdec8_recomputes_zf_sf (c : Cpu) (p : Pointer) (md : Nat)
    (c1 : Cpu) (v0 : Nat)
    (hmem : c.memory c.ip = 0xfe)
    (hmr : ({ c with ip := (c.ip + 1) % 65536 } : Cpu).read_mod_rm =
      some (p, md, c1))
    (hrd : c1.read8 p = some v0) :
    (md = 0 →
      (c.run).map (fun r => (r.1, r.2.zf, r.2.sf)) = some (true,
        decide (Cpu.sign_extend ((v0 + 1) % 256) = 0),
        decide (Cpu.sign_extend ((v0 + 1) % 256) / 32768 = 1))) ∧
    (md = 1 →
      (c.run).map (fun r => (r.1, r.2.zf, r.2.sf)) = some (true,
        decide (Cpu.sign_extend ((v0 + 255) % 256) = 0),
        decide (Cpu.sign_extend ((v0 + 255) % 256) / 32768 = 1))) := by
  constructor <;> intro hmd <;> subst hmd
  · simp [Cpu.run, Cpu.read_instr8, hmem]
    rw [hmr]
    simp
    rw [hrd]
    simp
    obtain ⟨c4, hw⟩ := Option.isSome_iff_exists.mp
      (Cpu.write8_isSome_of_read8 hrd
        (c1.set_flags (Cpu.sign_extend ((v0 + 1) % 256))) ((v0 + 1) % 256))
    rw [hw]
    simp
    have F := Cpu.write8_flags hw
    simp [F.2.1, F.2.2.1, Cpu.set_flags,
      Nat.mod_eq_of_lt (Cpu.sign_extend_lt _)]
  · simp [Cpu.run, Cpu.read_instr8, hmem]
    rw [hmr]
    simp
    rw [hrd]
    simp
    obtain ⟨c4, hw⟩ := Option.isSome_iff_exists.mp
      (Cpu.write8_isSome_of_read8 hrd
        (c1.set_flags (Cpu.sign_extend ((v0 + 255) % 256))) ((v0 + 255) % 256))
    rw [hw]
    simp
    have F := Cpu.write8_flags hw
    simp [F.2.1, F.2.2.1, Cpu.set_flags,
      Nat.mod_eq_of_lt (Cpu.sign_extend_lt _)]

/-- Claim C8: every move, exchange and no-op instruction leaves the
carry, zero and sign flags exactly as they were before the instruction;
every ALU-class operation recomputes the zero and sign flags from its
computed result (compare taking exactly the flags of the corresponding
subtraction), and every increment / decrement instruction (the 16-bit
register forms and the 8-bit r/m form) recomputes the zero and sign
flags from its result. -/
theorem claim_C8_flag_discipline :
    (∀ (c : Cpu) (op : Nat) (k : Bool) (c2 : Cpu),
      (op = 0x86 ∨ op = 0x88 ∨ op = 0x89 ∨ op = 0x8a ∨ op = 0x8b ∨
        op = 0x90 ∨ (0x91 ≤ op ∧ op ≤ 0x97) ∨ (0xb0 ≤ op ∧ op ≤ 0xbf) ∨
        op = 0xc7) →
      c.memory c.ip = op → c.run = some (k, c2) →
      c2.cf = c.cf ∧ c2.zf = c.zf ∧ c2.sf = c.sf) ∧
    (∀ (c : Cpu) (oper : Operation) (op1 op2 : Nat),
      oper ≠ Operation.Cmp →
      (c.alu oper op1 op2).2.zf = decide ((c.alu oper op1 op2).1 = 0) ∧
      (c.alu oper op1 op2).2.sf =
        decide ((c.alu oper op1 op2).1 / 32768 = 1)) ∧
    (∀ (c : Cpu) (op1 op2 : Nat),
      (c.alu .Cmp op1 op2).2 = (c.alu .Sub op1 op2).2) ∧
    (∀ (c : Cpu) (op : Nat), 0x40 ≤ op → op ≤ 0x47 → c.memory c.ip = op →
      (c.run).map (fun r => (r.1, r.2.zf, r.2.sf)) = some (true,
        decide ((Cpu.to16 (c.regs (op % 8 * 2)) (c.regs (op % 8 * 2 + 1)) + 1)
          % 65536 = 0),
        decide ((Cpu.to16 (c.regs (op % 8 * 2)) (c.regs (op % 8 * 2 + 1)) + 1)
          % 65536 / 32768 = 1))) ∧
    (∀ (c : Cpu) (op : Nat), 0x48 ≤ op → op ≤ 0x4f → c.memory c.ip = op →
      (c.run).map (fun r => (r.1, r.2.zf, r.2.sf)) = some (true,
        decide ((Cpu.to16 (c.regs (op % 8 * 2)) (c.regs (op % 8 * 2 + 1))
          + 65535) % 65536 = 0),
        decide ((Cpu.to16 (c.regs (op % 8 * 2)) (c.regs (op % 8 * 2 + 1))
          + 65535) % 65536 / 32768 = 1))) ∧
    (∀ (c : Cpu) (p : Pointer) (md : Nat) (c1 : Cpu) (v0 : Nat),
      c.memory c.ip = 0xfe →
      ({ c with ip := (c.ip + 1) % 65536 } : Cpu).read_mod_rm =
        some (p, md, c1) →
      c1.read8 p = some v0 →
      (md = 0 →
        (c.run).map (fun r => (r.1, r.2.zf, r.2.sf)) = some (true,
          decide (Cpu.sign_extend ((v0 + 1) % 256) = 0),
          decide (Cpu.sign_extend ((v0 + 1) % 256) / 32768 = 1))) ∧
      (md = 1 →
        (c.run).map (fun r => (r.1, r.2.zf, r.2.sf)) = some (true,
          decide (Cpu.sign_extend ((v0 + 255) % 256) = 0),
          decide (Cpu.sign_extend ((v0 + 255) % 256) / 32768 = 1)))) :=
  ⟨Cpu.moves_preserve_flags, Cpu.alu_recomputes_zf_sf,
   Cpu.alu_cmp_flags_eq_sub, Cpu.inc16_recomputes_zf_sf,
   Cpu.dec16_recomputes_zf_sf, Cpu.incdec8_recomputes_zf_sf⟩

/-- Concrete state for the claim C8 witness: NOP at address 0. -/
def c8nop : Cpu := { cpu0 with memory := fun i => if i = 0 then 0x90 else 0 }

/-- The state after the NOP of the claim C8 witness. -/
def c8nop_after : Cpu := { c8nop with ip := 1 }

/-- Concrete state for the claim C8 witness: increment register 0. -/
def c8inc : Cpu := { cpu0 with memory := fun i => if i = 0 then 0x40 else 0 }

/-- Concrete state for the claim C8 witness: 8-bit increment of register
0 through the addressing-mode byte 0xC0. -/
def c8fe : Cpu :=
  { cpu0 with
    memory := fun i => if i = 0 then 0xfe else if i = 1 then 0xc0 else 0 }

/-- The state after decoding the addressing-mode byte in the claim C8
0xFE witness. -/
def c8fe_1 : Cpu := { c8fe with ip := 2 }

/-- Claim C8 witness: the flag-discipline theorem applied at concrete
states exercising a no-op, an Add, a 16-bit increment and an 8-bit
increment. -/
theorem claim_C8_flag_discipline_witness :
    (c8nop_after.cf = c8nop.cf ∧ c8nop_after.zf = c8nop.zf ∧
      c8nop_after.sf = c8nop.sf) ∧
    ((cpu0.alu .Add 1 2).2.zf = decide ((cpu0.alu .Add 1 2).1 = 0) ∧
     (cpu0.alu .Add 1 2).2.sf =
       decide ((cpu0.alu .Add 1 2).1 / 32768 = 1)) ∧
    ((c8inc.run).map (fun r => (r.1, r.2.zf, r.2.sf)) = some (true,
      decide ((Cpu.to16 (c8inc.regs (0x40 % 8 * 2))
        (c8inc.regs (0x40 % 8 * 2 + 1)) + 1) % 65536 = 0),
      decide ((Cpu.to16 (c8inc.regs (0x40 % 8 * 2))
        (c8inc.regs (0x40 % 8 * 2 + 1)) + 1) % 65536 / 32768 = 1))) ∧
    ((c8fe.run).map (fun r => (r.1, r.2.zf, r.2.sf)) = some (true,
      decide (Cpu.sign_extend ((0 + 1) % 256) = 0),
      decide (Cpu.sign_extend ((0 + 1) % 256) / 32768 = 1))) :=
  ⟨claim_C8_flag_discipline.1 c8nop 0x90 true c8nop_after (by decide)
      (by decide) rfl,
   claim_C8_flag_discipline.2.1 cpu0 .Add 1 2 (by decide),
   claim_C8_flag_discipline.2.2.2.1 c8inc 0x40 (by decide) (by decide)
      (by decide),
   (claim_C8_flag_discipline.2.2.2.2.2 c8fe ⟨.Register, 0⟩ 0 c8fe_1 0
      (by decide) rfl (by decide)).1 rfl⟩
